import Mathlib

/-!
Shallow embedding of the cartridge-comparison job scripts:

* `CartridgePathComparisonReport.js` — fetches the cartridge path of paired
  hosts via OCAPI, diffs each pair, and writes a dated JSON report.
* `SendSiteCartridgePathDifference.js` — reads back the reports of the day,
  aggregates them, sends a notification email and archives the files.
* the email utility module (`sendMail`).

JavaScript effects are made explicit: per-host OCAPI responses, token
availability, and mail/template failures are inputs; raised `TypeError`s are
modelled with `Except`; `dw.system.Status` values are a small inductive.
-/

namespace CartridgeComparison

/-- A JavaScript runtime error raised by the scripts (uncaught exceptions). -/
inductive JsError
  | typeError
deriving DecidableEq

/-- The code carried by a `dw.system.Status` (`Status.OK` / `Status.ERROR`). -/
inductive StatusCode
  | ok
  | error
deriving DecidableEq

/-- A `dw.system.Status` value: its code and its message argument. -/
structure StatusV where
  code : StatusCode
  message : String
deriving DecidableEq

/-! ### String helpers mirroring the JavaScript string primitives used -/

/-- Characters removed by JavaScript `String.prototype.trim` (ECMAScript
whitespace and line terminators; the uncommon ones by code point). -/
def jsWhitespaceChar (c : Char) : Bool :=
  c == ' ' || c == '\t' || c == '\n' || c == '\r' ||
  c == Char.ofNat 11 || c == Char.ofNat 12 || c == Char.ofNat 160 ||
  c == Char.ofNat 8232 || c == Char.ofNat 8233 || c == Char.ofNat 65279

/-- JavaScript `String.prototype.trim`: drop leading and trailing whitespace. -/
def jsTrim (s : String) : String :=
  String.mk (((s.data.dropWhile jsWhitespaceChar).reverse.dropWhile
    jsWhitespaceChar).reverse)

/-- Splitting accumulator for `jsSplitColon`; mirrors the JavaScript split on a colon separator,
which keeps empty segments (`"a::b"` gives `["a","","b"]`, `""` gives `[""]`). -/
def jsSplitColonAux : List Char → List Char → List (List Char)
  | [], acc => [acc.reverse]
  | c :: rest, acc =>
      if c == ':' then acc.reverse :: jsSplitColonAux rest []
      else jsSplitColonAux rest (c :: acc)

/-- JavaScript split of a string on the colon character. -/
def jsSplitColon (s : String) : List String :=
  (jsSplitColonAux s.data []).map String.mk

/-- JavaScript truthiness of a string (`filter(Boolean)`): falsy iff empty. -/
def jsStringTruthy (s : String) : Bool :=
  !(s == "")

/-- JavaScript `str.startsWith(pre)` (also `str.indexOf(pre) === 0`). -/
def strStartsWith (s pre : String) : Bool :=
  pre.data.isPrefixOf s.data

/-- JavaScript `str.endsWith(suf)`. -/
def strEndsWith (s suf : String) : Bool :=
  suf.data.isSuffixOf s.data

/-! ### `CartridgePathComparisonReport.js` -/

/-- Source function `normalizeCartridges(cartridgeStr)`: split on colons,
trim each segment,
drop falsy (empty) segments. -/
def normalizeCartridges (cartridgeStr : String) : List String :=
  ((jsSplitColon cartridgeStr).map jsTrim).filter jsStringTruthy

/-- The object returned by `compareCartridges`. -/
structure CartridgeDiff where
  onlyInA : List String
  onlyInB : List String
deriving DecidableEq

/-- Source function `compareCartridges(listA, listB)`. `new Set(list)` deduplicates by
SameValueZero, which on strings is exact equality, so `setB.has(item)` is
list membership in `listB`. -/
def compareCartridges (listA listB : List String) : CartridgeDiff :=
  { onlyInA := listA.filter (fun item => !(listB.contains item))
    onlyInB := listB.filter (fun item => !(listA.contains item)) }

/-- The `object` of a parsed OCAPI site response; the `cartridges` field may
be absent (`none`). -/
structure OcapiObject where
  cartridges : Option String
deriving DecidableEq

/-- An OCAPI service-call result as consumed by `fetchCartridges`: its `ok`
flag and its (possibly absent) parsed `object`. -/
structure OcapiResponse where
  ok : Bool
  object : Option OcapiObject
deriving DecidableEq

/-- The value actually returned by `fetchCartridges`: on failure the source
returns a `new Status(Status.ERROR, ...)` object
(its JSDoc says `string[]|null`, but no `null` is ever returned), otherwise
the normalized cartridge array. -/
inductive FetchResult
  | errorStatus
  | cartridgeList (cartridges : List String)
deriving DecidableEq

/-- Source function `fetchCartridges(host, siteId, ocapiVersion, token)` applied to the
response for that host. The guard is
`!response.ok || !response.object || !response.object.cartridges`; note an
empty `cartridges` string is falsy and also taken as failure. -/
def fetchCartridges (response : OcapiResponse) : FetchResult :=
  if !response.ok then .errorStatus
  else
    match response.object with
    | none => .errorStatus
    | some obj =>
        match obj.cartridges with
        | none => .errorStatus
        | some c =>
            if !(jsStringTruthy c) then .errorStatus
            else .cartridgeList (normalizeCartridges c)

/-- JavaScript truthiness of a `fetchCartridges` result, as tested by
`if (cartridges1 && cartridges2)` in `execute`: a `dw.system.Status` instance
and an array are both objects, hence both truthy. -/
def fetchResultTruthy : FetchResult → Bool
  | .errorStatus => true
  | .cartridgeList _ => true

/-- The `compareCartridges` call as made by `execute` on raw `fetchCartridges`
results: `new Set(listA)` requires an iterable, and a `Status` object is not
iterable, so the call raises `TypeError` unless both arguments are arrays. -/
def compareCartridgesOnResults : FetchResult → FetchResult → Except JsError CartridgeDiff
  | .cartridgeList a, .cartridgeList b => .ok (compareCartridges a b)
  | _, _ => .error .typeError

/-- One entry pushed onto `structuredDiff.elementsToReport`. -/
structure ReportElement where
  hostInstance : String
  cartridgediff : List String
deriving DecidableEq

/-- The `for (j = 0; j < hosts.length; j += 2)` loop of `execute`: fetch both
hosts of each pair, and when both results are truthy diff them and push two
report elements; otherwise log and skip the pair. Returns the pushed elements
together with the hosts for which a fetch was issued; a raised `TypeError`
aborts the loop. The one-host leftover case is unreachable because `execute`
only runs the loop on even-length host lists. -/
def processHostPairs (fetch : String → OcapiResponse) :
    List String → Except JsError (List ReportElement × List String)
  | host1 :: host2 :: rest =>
      let cartridges1 := fetchCartridges (fetch host1)
      let cartridges2 := fetchCartridges (fetch host2)
      if fetchResultTruthy cartridges1 && fetchResultTruthy cartridges2 then
        match compareCartridgesOnResults cartridges1 cartridges2 with
        | .error e => .error e
        | .ok diff =>
            match processHostPairs fetch rest with
            | .error e => .error e
            | .ok (elems, fetched) =>
                .ok (⟨host1, diff.onlyInA⟩ :: ⟨host2, diff.onlyInB⟩ :: elems,
                  host1 :: host2 :: fetched)
      else
        match processHostPairs fetch rest with
        | .error e => .error e
        | .ok (elems, fetched) => .ok (elems, host1 :: host2 :: fetched)
  | [host1] => .ok ([], [host1])
  | [] => .ok ([], [])

/-- The job arguments of `CartridgePathComparisonReport.execute`, after
parsing: `hasRequiredArgs` is the truthiness of
`args && args.hostInstances && args.ocapiVersion`, and `hosts` is the result
of `safeParseArray(args.hostInstances)` (empty on parse failure). -/
structure JobArgs where
  hasRequiredArgs : Bool
  disableStep : Bool
  hosts : List String
  workingfolder : String

/-- The environment of one run of `CartridgePathComparisonReport.execute`:
the token returned by `ocapiService.getToken` (`null` on failure), the OCAPI
response per host, the current site id, and whether the directory-creation
and file-write calls in the final `try` block succeed. -/
structure JobEnv where
  token : Option String
  fetch : String → OcapiResponse
  siteId : String
  writeSucceeds : Bool

/-- The observable outcome of a `CartridgePathComparisonReport.execute` run
that returns a `Status`. -/
structure ExecResult where
  status : StatusV
  elementsToReport : List ReportElement
  fetchedHosts : List String
  fileWritten : Bool
deriving DecidableEq

/-- Source function `execute(args)` of `CartridgePathComparisonReport.js`. Guard order follows the
source: required-argument check, `disableStep`, host-list length check, token
check, then the pair loop; the final file write sits in a `try` whose `catch`
only logs, so a write failure leaves `fileWritten = false` but the returned
status is still `Status.OK`. A `TypeError` raised inside the loop is not
caught anywhere and propagates out of `execute`. -/
def execute (args : JobArgs) (env : JobEnv) : Except JsError ExecResult :=
  if !args.hasRequiredArgs then
    .ok ⟨⟨.error, "Missing required arguments."⟩, [], [], false⟩
  else if args.disableStep then
    .ok ⟨⟨.ok, "Step disabled."⟩, [], [], false⟩
  else if args.hosts.length < 2 || args.hosts.length % 2 != 0 then
    .ok ⟨⟨.error, "hostInstances must contain even number of hosts to form pairs."⟩, [], [], false⟩
  else
    match env.token with
    | none => .ok ⟨⟨.error, "OCAPI token failed."⟩, [], [], false⟩
    | some _ =>
        match processHostPairs env.fetch args.hosts with
        | .error e => .error e
        | .ok (elems, fetched) =>
            .ok ⟨⟨.ok, "Cartridge comparison completed."⟩, elems, fetched,
              env.writeSucceeds⟩

/-! ### The email utility module (`sendMail`) -/

/-- A failure inside the `try` block of `sendMail`. -/
inductive MailError
  | templateError
  | renderError
  | sendError
deriving DecidableEq

/-- The fallible platform calls made by `sendMail`: whether
`new Template(templatePath)`, `template.render(...)`, and `mail.send()`
succeed. -/
structure MailEnv where
  templateOk : Bool
  renderOk : Bool
  sendOk : Bool
deriving DecidableEq

/-- The body of the `try` block of `sendMail`: construct the template, render it
(with or without a context), assemble the mail and send it; the first failing
platform call raises. -/
def sendMailBody (env : MailEnv) : Except MailError Unit :=
  if !env.templateOk then .error .templateError
  else if !env.renderOk then .error .renderError
  else if !env.sendOk then .error .sendError
  else .ok ()

/-- Source function `sendMail(from, to, cc, subject, templatePath, contextObject)`:
the whole body sits in a try block whose catch logs and returns false, so the
function is total with a `Bool` result and never re-raises. -/
def sendMail (env : MailEnv) : Bool :=
  match sendMailBody env with
  | .ok _ => true
  | .error _ => false

/-! ### `SendSiteCartridgePathDifference.js` -/

/-- One element of the `elementsToReport` array of a parsed report; its
`cartridgediff` field may be absent (`none`). -/
structure ReportEntry where
  cartridgediff : Option (List String)
deriving DecidableEq

/-- A value parsed from a report file. `withElems` is a JSON object whose
`elementsToReport` is an array; `noElemsField` is any other JSON value (a
number, a string, or an object without that field), on which
`siteData.elementsToReport` is `undefined`, so indexing or `.some` on it
raises `TypeError`. -/
inductive SiteData
  | withElems (elementsToReport : List ReportEntry)
  | noElemsField
deriving DecidableEq

/-- A file in the working folder: its name and the result of reading it and
calling `JSON.parse` on its concatenated lines (`none` when the parse
throws). -/
structure DiffFile where
  name : String
  parsed : Option SiteData
deriving DecidableEq

/-- The file filter used both when reading and when archiving:
the name starts with the prefix made of `cartridge_difference_` and the
formatted date, and ends with `.json` (archiving uses the equivalent
`indexOf` test). -/
def matchesDayPattern (date : String) (fileName : String) : Bool :=
  strStartsWith fileName ("cartridge_difference_" ++ date) &&
    strEndsWith fileName ".json"

/-- The read-and-parse loop building `combinedResults`: each file matching
the day pattern is read and parsed; parse failures are logged and the file is
skipped. -/
def collectResults (date : String) (files : List DiffFile) : List SiteData :=
  (files.filter (fun f => matchesDayPattern date f.name)).filterMap
    (fun f => f.parsed)

/-- The length guard `elementsToReport[i] && elementsToReport[i].cartridgediff
? ....length : 0`: an absent element or an absent `cartridgediff` is falsy and
contributes 0; an empty array is truthy and contributes its length 0. -/
def entryLen (elems : List ReportEntry) (i : Nat) : Nat :=
  match elems[i]? with
  | none => 0
  | some r =>
      match r.cartridgediff with
      | none => 0
      | some l => l.length

/-- The `forEach` adding `maxLen = Math.max(lenA, lenB)` to each parsed
report, in order; accessing `elementsToReport[0]` on a value without that
field raises `TypeError`, which is not caught in `execute`. -/
def annotateMaxLen : List SiteData → Except JsError (List Nat)
  | [] => .ok []
  | .noElemsField :: _ => .error .typeError
  | .withElems elems :: rest =>
      match annotateMaxLen rest with
      | .error e => .error e
      | .ok tl => .ok (max (entryLen elems 0) (entryLen elems 1) :: tl)

/-- The test `report.cartridgediff && report.cartridgediff.length > 0`. -/
def entryHasDiff (r : ReportEntry) : Bool :=
  match r.cartridgediff with
  | none => false
  | some l => decide (l.length > 0)

/-- The inner `siteData.elementsToReport.some(...)` of the `hasDiffData`
computation; `.some` on `undefined` raises `TypeError`. -/
def siteHasDiff : SiteData → Except JsError Bool
  | .withElems elems => .ok (elems.any entryHasDiff)
  | .noElemsField => .error .typeError

/-- The outer `combinedResults.some` computing `hasDiffData`; `Array.prototype.some`
short-circuits at the first `true`. -/
def hasDiffData : List SiteData → Except JsError Bool
  | [] => .ok false
  | d :: rest =>
      match siteHasDiff d with
      | .error e => .error e
      | .ok true => .ok true
      | .ok false => hasDiffData rest

/-- The email-related parameters in the `pdict` of the notification step. -/
structure NotifyParams where
  emailSubject : String
  emailSubjectWithoutDiff : String
  template : String
deriving DecidableEq

/-- The observable outcome of a `SendSiteCartridgePathDifference.execute` run
that returns a `Status`: the status code, whether `sendMail` was called and
what it returned, the subject and template it was given, and the names of the
files moved into the `archive` subdirectory. -/
structure NotifyResult where
  status : StatusCode
  mailSent : Option Bool
  subjectUsed : Option String
  templateUsed : Option String
  archivedFiles : List String
deriving DecidableEq

/-- Source function `execute(pdict)` of `SendSiteCartridgePathDifference.js`.
Here `folderOk` is
`workingFolder.exists() && workingFolder.isDirectory()`; `files` is the
directory listing; `date` the formatted current date. The `maxLen` `forEach` and the
`hasDiffData` computation sit outside any `try`, so a `TypeError` there
propagates out of `execute`. Inside the final `try`, `sendMail` returns a
`Bool` (it never throws) and its result is not inspected, and the archive
`mkdirs`/`renameTo` calls return booleans, so the `catch` (which would return
`Status.ERROR`) is unreachable and the matching files are always renamed into
`archive/`. -/
def executeNotify (pdict : NotifyParams) (folderOk : Bool)
    (files : List DiffFile) (date : String) (mailEnv : MailEnv) :
    Except JsError NotifyResult :=
  if !folderOk then .ok ⟨.ok, none, none, none, []⟩
  else if files.isEmpty then .ok ⟨.ok, none, none, none, []⟩
  else
    let combinedResults := collectResults date files
    if combinedResults.isEmpty then .ok ⟨.ok, none, none, none, []⟩
    else
      match annotateMaxLen combinedResults with
      | .error e => .error e
      | .ok _maxLens =>
          match hasDiffData combinedResults with
          | .error e => .error e
          | .ok hasDiff =>
              let emailSubject :=
                if hasDiff then pdict.emailSubject
                else pdict.emailSubjectWithoutDiff
              let templateToUse :=
                if hasDiff then pdict.template
                else "mail/utilitiesDifferenceNotFound.isml"
              let sent := sendMail mailEnv
              let archived :=
                (files.filter (fun f => matchesDayPattern date f.name)).map
                  (fun f => f.name)
              .ok ⟨.ok, some sent, some emailSubject, some templateToUse,
                archived⟩

/-! ### Theorems -/

/-- C7: for every input string, `normalizeCartridges` splits on the colon,
trims whitespace from each segment and removes empty segments, preserving
order: on the spec example input (a, space, colon, space, b, colon, colon,
space, c, space) it returns exactly the segments a, b, c; every returned
segment is non-empty; and the returned list is an order-preserving
subsequence of the trimmed split segments. -/
theorem normalizeCartridges_trims_and_drops_empty :
    normalizeCartridges ("a : b:: c ") = [("a"), ("b"), ("c")] ∧
    (∀ s : String, ∀ x ∈ normalizeCartridges s, x ≠ ("")) ∧
    (∀ s : String,
      (normalizeCartridges s).Sublist ((jsSplitColon s).map jsTrim)) := by
  refine ⟨by decide, ?_, ?_⟩
  · intro s x hx
    have hmem := (List.mem_filter.mp hx).2
    simpa [jsStringTruthy] using hmem
  · intro s
    exact List.filter_sublist _

/-- Witness for the hypothesis-bearing parts of
`normalizeCartridges_trims_and_drops_empty` at a concrete input. -/
theorem normalizeCartridges_trims_and_drops_empty_witness :
    ("a" : String) ≠ ("") :=
  normalizeCartridges_trims_and_drops_empty.2.1 ("a : b:: c ") ("a") (by decide)

/-- C3: for all string lists `A` and `B`, no element of `onlyInA` occurs in
`B` and no element of `onlyInB` occurs in `A` (exact string equality). -/
theorem compareCartridges_disjoint (A B : List String) :
    (∀ x ∈ (compareCartridges A B).onlyInA, x ∉ B) ∧
    (∀ x ∈ (compareCartridges A B).onlyInB, x ∉ A) := by
  constructor <;> intro x hx <;>
    · simp only [compareCartridges, List.mem_filter] at hx
      simpa using hx.2

/-- Witness for `compareCartridges_disjoint` at a concrete input. -/
theorem compareCartridges_disjoint_witness :
    ("a" : String) ∉ ([("b"), ("c")] : List String) :=
  (compareCartridges_disjoint [("a"), ("b")] [("b"), ("c")]).1 ("a") (by decide)

/-- C6: `compareCartridges` performs no deduplication within a single list:
every occurrence of an element of `A` absent from `B` is kept in `onlyInA`
(the multiplicity is preserved) and `onlyInA` is an order-preserving
subsequence of `A`; symmetrically for `onlyInB`. -/
theorem compareCartridges_no_dedup (A B : List String) (x : String) :
    (x ∉ B → ((compareCartridges A B).onlyInA).count x = A.count x) ∧
    ((compareCartridges A B).onlyInA).Sublist A ∧
    (x ∉ A → ((compareCartridges A B).onlyInB).count x = B.count x) ∧
    ((compareCartridges A B).onlyInB).Sublist B := by
  refine ⟨?_, List.filter_sublist _, ?_, List.filter_sublist _⟩ <;>
    · intro hx
      apply List.count_filter
      simpa using hx

/-- Witness for `compareCartridges_no_dedup` at a concrete input. -/
theorem compareCartridges_no_dedup_witness :
    ((compareCartridges [("a"), ("b"), ("a")] [("b")]).onlyInA).count ("a") =
      ([("a"), ("b"), ("a")] : List String).count ("a") :=
  (compareCartridges_no_dedup [("a"), ("b"), ("a")] [("b")] ("a")).1 (by decide)

/-- Helper: `entryHasDiff` holds exactly on a present, non-empty
`cartridgediff`. -/
theorem entryHasDiff_iff (r : ReportEntry) :
    entryHasDiff r = true ↔ ∃ l, r.cartridgediff = some l ∧ l ≠ [] := by
  rcases r with ⟨cd⟩
  cases cd with
  | none => simp [entryHasDiff]
  | some l =>
      simp only [entryHasDiff, decide_eq_true_eq, Option.some.injEq]
      constructor
      · intro h
        exact ⟨l, rfl, List.length_pos.mp h⟩
      · rintro ⟨l', hl', hne⟩
        subst hl'
        exact List.length_pos.mpr hne

/-- Helper: on a list of well-formed parsed reports, the short-circuiting
`hasDiffData` fold computes the boolean `any` of `entryHasDiff`. -/
theorem hasDiffData_map_withElems (datas : List (List ReportEntry)) :
    hasDiffData (datas.map SiteData.withElems) =
      .ok (datas.any (fun elems => elems.any entryHasDiff)) := by
  induction datas with
  | nil => rfl
  | cons d rest ih =>
      cases h : d.any entryHasDiff with
      | true => simp [hasDiffData, siteHasDiff, h]
      | false => simp [hasDiffData, siteHasDiff, h, ih]

/-- C4: for every collector aggregate (a list of parsed reports each carrying
an `elementsToReport` array), `hasDiffData` is true iff at least one
`cartridgediff` across all reports and elements is present and non-empty; in
particular a single report whose two elements both carry empty
`cartridgediff` arrays yields false. -/
theorem hasDiffData_iff_some_nonempty (datas : List (List ReportEntry)) :
    (hasDiffData (datas.map SiteData.withElems) = .ok true ↔
      ∃ elems ∈ datas, ∃ r ∈ elems, ∃ l, r.cartridgediff = some l ∧ l ≠ []) ∧
    hasDiffData [SiteData.withElems [⟨some []⟩, ⟨some []⟩]] = .ok false := by
  refine ⟨?_, rfl⟩
  rw [hasDiffData_map_withElems]
  simp only [Except.ok.injEq, List.any_eq_true, entryHasDiff_iff]

/-- C5: a run of `execute` whose required arguments are present and whose
step is enabled, but whose parsed host list has odd length or length below
two, returns an ERROR status with no fetch issued, no report element
produced, and no file written. -/
theorem execute_odd_hosts_config_error (args : JobArgs) (env : JobEnv)
    (hargs : args.hasRequiredArgs = true) (hdis : args.disableStep = false)
    (hlen : args.hosts.length < 2 ∨ args.hosts.length % 2 ≠ 0) :
    execute args env =
      .ok ⟨⟨.error,
        "hostInstances must contain even number of hosts to form pairs."⟩,
        [], [], false⟩ := by
  simp only [execute, hargs, hdis]
  simp
  intro h1 h2
  rcases hlen with h | h <;> omega

/-- Witness for `execute_odd_hosts_config_error` at a concrete input. -/
theorem execute_odd_hosts_config_error_witness :
    execute ⟨true, false, [("h1"), ("h2"), ("h3")], ("wf")⟩
      ⟨some ("tok"), (fun _ => ⟨true, some ⟨some ("a")⟩⟩), ("SiteA"), true⟩ =
      .ok ⟨⟨.error,
        "hostInstances must contain even number of hosts to form pairs."⟩,
        [], [], false⟩ :=
  execute_odd_hosts_config_error _ _ rfl rfl (by decide)

/-- C8: a run of `execute` that reaches the persistence phase (all guards
passed and the pair loop completed without raising) still returns an OK
status when the directory creation or file write fails; only `fileWritten`
is false. -/
theorem execute_write_failure_still_ok (args : JobArgs) (env : JobEnv)
    (hargs : args.hasRequiredArgs = true) (hdis : args.disableStep = false)
    (hlen : ¬(args.hosts.length < 2 ∨ args.hosts.length % 2 ≠ 0))
    (t : String) (htok : env.token = some t)
    (elems : List ReportElement) (fetched : List String)
    (hloop : processHostPairs env.fetch args.hosts = .ok (elems, fetched))
    (hw : env.writeSucceeds = false) :
    execute args env =
      .ok ⟨⟨.ok, "Cartridge comparison completed."⟩, elems, fetched, false⟩ := by
  have h1 : ¬ args.hosts.length < 2 := fun h => hlen (Or.inl h)
  have h2 : args.hosts.length % 2 = 0 := by
    by_contra h
    exact hlen (Or.inr h)
  simp [execute, hargs, hdis, h1, h2, htok, hloop, hw]

/-- Witness for `execute_write_failure_still_ok` at a concrete input. -/
theorem execute_write_failure_still_ok_witness :
    execute ⟨true, false, [("h1"), ("h2")], ("wf")⟩
      ⟨some ("tok"), (fun _ => ⟨true, some ⟨some ("a:b")⟩⟩), ("SiteA"), false⟩ =
      .ok ⟨⟨.ok, "Cartridge comparison completed."⟩,
        [⟨("h1"), []⟩, ⟨("h2"), []⟩], [("h1"), ("h2")], false⟩ :=
  execute_write_failure_still_ok _ _ rfl rfl (by decide) ("tok") rfl
    [⟨("h1"), []⟩, ⟨("h2"), []⟩] [("h1"), ("h2")] (by rfl) rfl

/-- C9: `sendMail` is total (the whole body is wrapped in a try block whose
catch logs and returns false, so no exception reaches the caller — its result
type here is plain `Bool`); it returns true exactly when template
construction, rendering and dispatch all succeed, and false when any of them
fails. -/
theorem sendMail_total_bool (env : MailEnv) :
    sendMail env = (env.templateOk && env.renderOk && env.sendOk) ∧
    (sendMail env = true ↔ sendMailBody env = .ok ()) := by
  rcases env with ⟨t, r, s⟩
  cases t <;> cases r <;> cases s <;>
    simp [sendMail, sendMailBody]

/-- C1 (actual code behavior at the failing input): with two host pairs where
the OCAPI response for the first host lacks the `ok` flag, `execute` does not
skip that pair — `fetchCartridges` returns a truthy Status object, the
`cartridges1 && cartridges2` guard passes, and `compareCartridges` raises
`TypeError` on the non-iterable Status — so the whole run aborts and the
healthy second pair is never reported. -/
theorem execute_fetch_failure_aborts_run :
    execute ⟨true, false, [("a1"), ("a2"), ("b1"), ("b2")], ("wf")⟩
      ⟨some ("tok"),
        (fun h =>
          if h == ("a1") then ⟨false, some ⟨some ("a:b")⟩⟩
          else ⟨true, some ⟨some ("x:y")⟩⟩),
        ("SiteA"), true⟩ =
      .error .typeError := by
  rfl

/-- C2 (actual code behavior at the failing input): with one valid diff file
for the day and a mail dispatch that fails, the notification step still
returns an OK status and still moves the file to the archive subdirectory —
`sendMail` swallows the failure and returns false, and `execute` ignores
that return value. -/
theorem notify_mail_failure_archives_and_ok :
    executeNotify ⟨("Diff found"), ("No diff"), ("mail/diff.isml")⟩ true
      [⟨("cartridge_difference_20260101_SiteA.json"),
        some (.withElems [⟨some [("x")]⟩, ⟨some []⟩])⟩]
      ("20260101") ⟨true, true, false⟩ =
      .ok ⟨.ok, some false, some ("Diff found"), some ("mail/diff.isml"),
        [("cartridge_difference_20260101_SiteA.json")]⟩ := by
  rfl

/-- Helper: the `maxLen` annotation pass raises `TypeError` as soon as the
list of parsed reports contains a value without an `elementsToReport`
array. -/
theorem annotateMaxLen_error_of_mem (l : List SiteData)
    (h : SiteData.noElemsField ∈ l) :
    annotateMaxLen l = .error .typeError := by
  induction l with
  | nil => cases h
  | cons d rest ih =>
      cases d with
      | noElemsField => rfl
      | withElems elems =>
          have hrest : SiteData.noElemsField ∈ rest := by
            rcases List.mem_cons.mp h with h1 | h1
            · simp at h1
            · exact h1
          simp [annotateMaxLen, ih hrest]

/-- C10: whenever some file of the day matches the report-name pattern and
parses as syntactically valid JSON whose value lacks an `elementsToReport`
array, the `maxLen` annotation raises an uncaught `TypeError` and the whole
notification step aborts instead of skipping only that file. -/
theorem notify_aborts_on_missing_elements (pdict : NotifyParams)
    (files : List DiffFile) (date : String) (mailEnv : MailEnv)
    (h : ∃ f ∈ files, matchesDayPattern date f.name = true ∧
      f.parsed = some SiteData.noElemsField) :
    executeNotify pdict true files date mailEnv = .error .typeError := by
  obtain ⟨f, hf, hmatch, hparsed⟩ := h
  have hmem : SiteData.noElemsField ∈ collectResults date files := by
    apply List.mem_filterMap.mpr
    exact ⟨f, List.mem_filter.mpr ⟨hf, hmatch⟩, hparsed⟩
  have hfiles : files.isEmpty = false := by
    cases files with
    | nil => cases hf
    | cons a l => rfl
  have hcomb : (collectResults date files).isEmpty = false := by
    cases hc : collectResults date files with
    | nil => rw [hc] at hmem; cases hmem
    | cons a l => rfl
  simp [executeNotify, hfiles, hcomb, annotateMaxLen_error_of_mem _ hmem]

/-- Witness for `notify_aborts_on_missing_elements` at a concrete input. -/
theorem notify_aborts_on_missing_elements_witness :
    executeNotify ⟨("s1"), ("s2"), ("t")⟩ true
      [⟨("cartridge_difference_20260101_A.json"), some SiteData.noElemsField⟩]
      ("20260101") ⟨true, true, true⟩ = .error .typeError :=
  notify_aborts_on_missing_elements _ _ _ _
    ⟨⟨("cartridge_difference_20260101_A.json"), some SiteData.noElemsField⟩,
      by decide, by decide, rfl⟩

end CartridgeComparison
